import Mathlib

/-!
Shallow embedding of the host-side pairing-orchestration layer
(`src/main.rs` of the repository): the byte codec (`shift`, `to_le`,
`from_le`), the engine handle and its domain-bridge read (`get_f12`),
the fixed-offset generator readers (`g1`, `g2`), handle construction
(`from_file`), and the verification-harness call sequence of the test
`paring_is_unitary`.  Engine-exported operations (domain conversion,
negation, conjugation, pairing) are opaque functions on the linear
memory and are modelled as abstract state transformers.  Fallible
code — Rust slice-indexing panics and `Result` returns — is modelled
with `Option` / `Except`.
-/

set_option autoImplicit false

/-- The shared linear memory: a flat byte array (`Vec<u8>` snapshots in
the source).  Byte values are `Nat`; the Rust type guarantees `< 256`,
which is carried as an explicit hypothesis where it matters. -/
abbrev Mem := List Nat

/-- Fixed well-known offset of the group-1 generator (`const P_G1`). -/
def P_G1 : Nat := 42104

/-- Fixed well-known offset of the group-2 generator (`const P_G2`). -/
def P_G2 : Nat := 42392

/-- `fn shift(start, data, pos)`: the 48-byte slot slice
`data[start + pos*48 .. start + (pos+1)*48]`.  The Rust slice indexing
panics when the range exceeds the buffer; that failure is `none`. -/
def shift (start : Nat) (data : Mem) (pos : Nat) : Option (List Nat) :=
  let n8q := 48
  if start + (pos + 1) * n8q ≤ data.length then
    some ((data.drop (start + pos * n8q)).take n8q)
  else
    none

/-- `fn from_le(vec)`: `BigUint::from_bytes_le`, the little-endian value
of a byte buffer of any length. -/
def from_le (vec : List Nat) : Nat :=
  vec.foldr (fun b acc => b + 256 * acc) 0

/-- Minimal little-endian base-256 digit list of `n` (empty for `0`), by
fuel-indexed structural recursion; the fuel bounds the digit count, and
`n` itself is always enough fuel. -/
def toLeBytesAux : Nat → Nat → List Nat
  | _, 0 => []
  | 0, _ + 1 => []
  | fuel + 1, n + 1 => ((n + 1) % 256) :: toLeBytesAux fuel ((n + 1) / 256)

/-- `fn to_le(str)`: `BigUint::to_bytes_le` of the parsed value — the
minimal little-endian byte buffer, which is `[0]` for zero.  The decimal
parse is elided; the modelled domain is the parsed value itself. -/
def to_le (v : Nat) : List Nat :=
  if v = 0 then [0] else toLeBytesAux v v

lemma from_le_toLeBytesAux (fuel : Nat) :
    ∀ n, n ≤ fuel → from_le (toLeBytesAux fuel n) = n := by
  induction fuel with
  | zero =>
    intro n hn
    interval_cases n
    simp [toLeBytesAux, from_le]
  | succ fuel ih =>
    intro n hn
    match n with
    | 0 => simp [toLeBytesAux, from_le]
    | m + 1 =>
      have hdiv : (m + 1) / 256 < m + 1 := Nat.div_lt_self (Nat.succ_pos m) (by norm_num)
      have h1 : (m + 1) / 256 ≤ fuel := by omega
      simp only [toLeBytesAux, from_le, List.foldr_cons]
      have := ih _ h1
      simp only [from_le] at this
      rw [this]
      omega

lemma toLeBytesAux_length_le_iff (k : Nat) :
    ∀ fuel n, n ≤ fuel → ((toLeBytesAux fuel n).length ≤ k ↔ n < 256 ^ k) := by
  induction k with
  | zero =>
    intro fuel n hn
    match fuel, n with
    | fuel, 0 => cases fuel <;> simp [toLeBytesAux]
    | fuel + 1, m + 1 => simp [toLeBytesAux]
  | succ k ihk =>
    intro fuel n hn
    match fuel, n with
    | fuel, 0 =>
      cases fuel <;> simp [toLeBytesAux]
    | fuel + 1, m + 1 =>
      have hdiv : (m + 1) / 256 < m + 1 := Nat.div_lt_self (Nat.succ_pos m) (by norm_num)
      simp only [toLeBytesAux, List.length_cons, Nat.add_le_add_iff_right]
      rw [ihk fuel _ (by omega)]
      rw [pow_succ]
      omega

lemma from_le_replicate_zero (n : Nat) : from_le (List.replicate n 0) = 0 := by
  induction n with
  | zero => rfl
  | succ n ih => simp [from_le, List.replicate_succ, List.foldr_cons] at *; omega

lemma shift_replicate (start n pos : Nat) (h : start + (pos + 1) * 48 ≤ n) :
    shift start (List.replicate n (0 : Nat)) pos = some (List.replicate 48 0) := by
  unfold shift
  rw [if_pos (by simpa using h)]
  rw [List.drop_replicate, List.take_replicate]
  congr 1
  congr 1
  omega

/-- The engine's two domain-conversion exports, `ftm_fromMontgomery` and
`ftm_toMontgomery`, as consumed by `get_f12`: opaque `(from, to)`
state transformers on the linear memory. -/
structure Engine where
  fromMontgomery : Nat → Nat → Mem → Mem
  toMontgomery : Nat → Nat → Mem → Mem

/-- The decoded `[[[BigUint; 2]; 3]; 2]` grid, as nested lists. -/
abbrev F12 := List (List (List Nat))

/-- The 12-slot decode of `get_f12`'s body (source lines 126-155): slots
`0..11` of 48 bytes each at base `p`, in the fixed order
`[[[0,1],[2,3],[4,5]],[[6,7],[8,9],[10,11]]]`, each slot decoded with
`from_le`.  A slice-bounds panic is `none`. -/
def decodeF12 (data : Mem) (p : Nat) : Option F12 := do
  let s0 ← shift p data 0
  let s1 ← shift p data 1
  let s2 ← shift p data 2
  let s3 ← shift p data 3
  let s4 ← shift p data 4
  let s5 ← shift p data 5
  let s6 ← shift p data 6
  let s7 ← shift p data 7
  let s8 ← shift p data 8
  let s9 ← shift p data 9
  let s10 ← shift p data 10
  let s11 ← shift p data 11
  pure [[[from_le s0, from_le s1], [from_le s2, from_le s3], [from_le s4, from_le s5]],
        [[from_le s6, from_le s7], [from_le s8, from_le s9], [from_le s10, from_le s11]]]

/-- `fn get_f12(&mut self, p_f12, in_montgomery)`: when `in_montgomery`
is false, run `from_montgomery(p_f12, p_f12)`, snapshot the memory,
run `to_montgomery(p_f12, p_f12)`, and decode the grid from the
snapshot; when true, decode directly.  Returns the decoded grid
together with the memory state after the call. -/
def get_f12 (e : Engine) (mem : Mem) (p_f12 : Nat) (in_montgomery : Bool) :
    Option (F12 × Mem) :=
  let mem1 := if !in_montgomery then e.fromMontgomery p_f12 p_f12 mem else mem
  let data : Mem := mem1
  let mem2 := if !in_montgomery then e.toMontgomery p_f12 p_f12 mem1 else mem1
  (decodeF12 data p_f12).map (fun g => (g, mem2))

/-- `fn g1(&self)`: the three raw 48-byte slots `[shift(P_G1, data, 0),
shift(P_G1, data, 1), shift(P_G1, data, 2)]` — byte buffers, not
decoded integers, at the fixed generator offset. -/
def g1 (data : Mem) : Option (List (List Nat)) := do
  let s0 ← shift P_G1 data 0
  let s1 ← shift P_G1 data 1
  let s2 ← shift P_G1 data 2
  pure [s0, s1, s2]

/-- `fn g2(&self)`: the six raw slots at the fixed generator offset
`P_G2`, nested `[[[s0, s1]], [[s2, s3]], [[s4, s5]]]` (the source's
`[[[Vec<u8>; 2]; 1]; 3]` — three coordinates, each a singleton wrapper
around a pair of byte buffers). -/
def g2 (data : Mem) : Option (List (List (List (List Nat)))) := do
  let s0 ← shift P_G2 data 0
  let s1 ← shift P_G2 data 1
  let s2 ← shift P_G2 data 2
  let s3 ← shift P_G2 data 3
  let s4 ← shift P_G2 data 4
  let s5 ← shift P_G2 data 5
  pure [[[s0, s1]], [[s2, s3]], [[s4, s5]]]

/-- Spec-side reader, for comparison with the source's `g1`
(`read_g1(offset) -> 3 integers`, §4.4 of the spec): slots `0..2` at
`off`, each decoded to an integer. -/
def readG1Spec (data : Mem) (off : Nat) : Option (List Nat) := do
  let s0 ← shift off data 0
  let s1 ← shift off data 1
  let s2 ← shift off data 2
  pure [from_le s0, from_le s1, from_le s2]

/-- Spec-side reader, for comparison with the source's `g2`
(`read_g2(offset) -> 3x2 integers`, §4.4 of the spec): slots `0..5` at
`off`, decoded into a 3x2 grid of integers. -/
def readG2Spec (data : Mem) (off : Nat) : Option (List (List Nat)) := do
  let s0 ← shift off data 0
  let s1 ← shift off data 1
  let s2 ← shift off data 2
  let s3 ← shift off data 3
  let s4 ← shift off data 4
  let s5 ← shift off data 5
  pure [[from_le s0, from_le s1], [from_le s2, from_le s3], [from_le s4, from_le s5]]

/-- The failure points of `WasmInstance::from_file`, in source order:
the file read (`.unwrap()` panic), `Module::new` (`?`), `Memory::new`
(mapped error), `linker.instantiate` (`?`), `.start` (`?`).  There is
no missing-export variant: construction never inspects exports. -/
inductive LoadError where
  | readFailed
  | invalidModule
  | memoryAllocationFailed
  | linkFailed
  | startFailed
deriving DecidableEq, Repr

/-- An engine image as seen by `from_file`: which construction steps
succeed, and the set of names the instantiated module exports as
correctly-typed functions. -/
structure EngineImage where
  readOk : Bool
  moduleValid : Bool
  linkOk : Bool
  startOk : Bool
  exports : List String
deriving DecidableEq, Repr

/-- The constructed handle: the `WasmInstance`, which retains the
instance (hence its export set) for later call-time lookups. -/
structure Handle where
  exports : List String
deriving DecidableEq, Repr

/-- The exported operation names the spec lists as required (domain
conversion in/out, pairing, the two negations, conjugation). -/
def requiredExports : List String :=
  ["ftm_fromMontgomery", "ftm_toMontgomery", "bls12381_pairing",
   "g1m_neg", "g2m_neg", "ftm_conjugate"]

/-- `WasmInstance::from_file`: read the image, build the module, create
the memory, instantiate, start.  No step consults the module's export
set; success is decided before any export is looked up. -/
def from_file (img : EngineImage) (memOk : Bool) : Except LoadError Handle :=
  if !img.readOk then .error .readFailed
  else if !img.moduleValid then .error .invalidModule
  else if !memOk then .error .memoryAllocationFailed
  else if !img.linkOk then .error .linkFailed
  else if !img.startOk then .error .startFailed
  else .ok ⟨img.exports⟩

/-- The call-time lookup shared by `from_montgomery`, `to_montgomery`,
`compute_pairing`, `g1m_neg`, `g2m_neg` and `ftm_conjugate`:
`get_export(name) ... ok_or_else(|| anyhow!("could not find function
..."))`, performed on every call, never at construction. -/
def call_export (h : Handle) (name : String) : Except String Unit :=
  if name ∈ h.exports then .ok ()
  else .error ("could not find function " ++ name)

/-- The full set of engine exports used by the verification harness,
each an opaque state transformer on the linear memory. -/
structure FullEngine extends Engine where
  g1mNeg : Nat → Nat → Mem → Mem
  g2mNeg : Nat → Nat → Mem → Mem
  pairingOp : Nat → Nat → Nat → Mem → Mem
  conjugateOp : Nat → Nat → Mem → Mem

/-- Scratch offset of the negated group-1 generator in the harness. -/
def p_n_g1 : Nat := 125000

/-- Scratch offset of the negated group-2 generator in the harness. -/
def p_n_g2 : Nat := 126000

/-- Scratch result offset of `pairing(P, Q)` in the harness. -/
def p_p : Nat := 127000

/-- Scratch result offset of `pairing(-P, Q)` in the harness. -/
def p_q : Nat := 128000

/-- Scratch result offset of `pairing(P, -Q)` in the harness. -/
def p_r : Nat := 129000

/-- One engine invocation of the verification harness, as a trace
event. -/
inductive Op where
  | g1neg (src dst : Nat)
  | g2neg (src dst : Nat)
  | pairing (pG1 pG2 pRes : Nat)
  | conjugate (src dst : Nat)
  | readF12 (p : Nat) (inMontgomery : Bool)
deriving DecidableEq, Repr

/-- The operation sequence of the test `tests::paring_is_unitary`, in
source order (lines 218-226): the conjugation of the first pairing
result happens between the first pairing and the remaining two. -/
def harnessTrace : List Op :=
  [.g1neg P_G1 p_n_g1,
   .g2neg P_G2 p_n_g2,
   .pairing P_G1 P_G2 p_p,
   .conjugate p_p p_p,
   .pairing p_n_g1 P_G2 p_q,
   .pairing P_G1 p_n_g2 p_r,
   .readF12 p_p false,
   .readF12 p_q false,
   .readF12 p_r false]

/-- The operation sequence the spec's procedure prescribes (§4.6):
negate, negate, all three pairings, then conjugate the first result,
then the three standard-domain reads. -/
def specClaimTrace : List Op :=
  [.g1neg P_G1 p_n_g1,
   .g2neg P_G2 p_n_g2,
   .pairing P_G1 P_G2 p_p,
   .pairing p_n_g1 P_G2 p_q,
   .pairing P_G1 p_n_g2 p_r,
   .conjugate p_p p_p,
   .readF12 p_p false,
   .readF12 p_q false,
   .readF12 p_r false]

/-- The amended procedure order: conjugation of the first pairing
result immediately after the first pairing, before the second and
third pairings. -/
def specAmendedTrace : List Op :=
  [.g1neg P_G1 p_n_g1,
   .g2neg P_G2 p_n_g2,
   .pairing P_G1 P_G2 p_p,
   .conjugate p_p p_p,
   .pairing p_n_g1 P_G2 p_q,
   .pairing P_G1 p_n_g2 p_r,
   .readF12 p_p false,
   .readF12 p_q false,
   .readF12 p_r false]

/-- Outcomes of a harness run: a slice-bounds panic during a decode, or
a failed `assert_eq!` on the decoded grids. -/
inductive HarnessError where
  | outOfBounds
  | pairingIdentityViolation
deriving DecidableEq, Repr

/-- The memory state after the six engine calls of
`tests::paring_is_unitary` (lines 218-223), before the three reads. -/
def memAfterCalls (e : FullEngine) (mem : Mem) : Mem :=
  e.pairingOp P_G1 p_n_g2 p_r
    (e.pairingOp p_n_g1 P_G2 p_q
      (e.conjugateOp p_p p_p
        (e.pairingOp P_G1 P_G2 p_p
          (e.g2mNeg P_G2 p_n_g2
            (e.g1mNeg P_G1 p_n_g1 mem)))))

/-- `tests::paring_is_unitary`: the six engine calls, the three
standard-domain reads (each itself running the domain bridge), and the
two `assert_eq!` checks, a failure of which is the pairing-identity
violation. -/
def paring_is_unitary (e : FullEngine) (mem : Mem) : Except HarnessError Unit :=
  let m6 := memAfterCalls e mem
  match get_f12 e.toEngine m6 p_p false with
  | none => .error .outOfBounds
  | some (p, m7) =>
    match get_f12 e.toEngine m7 p_q false with
    | none => .error .outOfBounds
    | some (q, m8) =>
      match get_f12 e.toEngine m8 p_r false with
      | none => .error .outOfBounds
      | some (r, _) =>
        if p = q then
          if q = r then .ok () else .error .pairingIdentityViolation
        else .error .pairingIdentityViolation

lemma shift_eq_none (start : Nat) (data : Mem) (pos : Nat)
    (h : data.length < start + (pos + 1) * 48) : shift start data pos = none := by
  simp only [shift]
  rw [if_neg]
  omega

lemma decodeF12_eq_none_of_oob (data : Mem) (p : Nat) (h : data.length < p + 12 * 48) :
    decodeF12 data p = none := by
  have h11 : shift p data 11 = none := shift_eq_none p data 11 (by omega)
  unfold decodeF12
  rw [h11]
  cases shift p data 0 <;> cases shift p data 1 <;> cases shift p data 2 <;>
    cases shift p data 3 <;> cases shift p data 4 <;> cases shift p data 5 <;>
    cases shift p data 6 <;> cases shift p data 7 <;> cases shift p data 8 <;>
    cases shift p data 9 <;> cases shift p data 10 <;> rfl

lemma g1_eq_none_of_oob (data : Mem) (h : data.length < P_G1 + 3 * 48) :
    g1 data = none := by
  have h2 : shift P_G1 data 2 = none := shift_eq_none P_G1 data 2 (by omega)
  unfold g1
  rw [h2]
  cases shift P_G1 data 0 <;> cases shift P_G1 data 1 <;> rfl

lemma g2_eq_none_of_oob (data : Mem) (h : data.length < P_G2 + 6 * 48) :
    g2 data = none := by
  have h5 : shift P_G2 data 5 = none := shift_eq_none P_G2 data 5 (by omega)
  unfold g2
  rw [h5]
  cases shift P_G2 data 0 <;> cases shift P_G2 data 1 <;> cases shift P_G2 data 2 <;>
    cases shift P_G2 data 3 <;> cases shift P_G2 data 4 <;> rfl

lemma decodeF12_replicate (n p : Nat) (h : p + 12 * 48 ≤ n) :
    decodeF12 (List.replicate n 0) p =
      some [[[0, 0], [0, 0], [0, 0]], [[0, 0], [0, 0], [0, 0]]] := by
  have hs : ∀ pos, pos < 12 →
      shift p (List.replicate n (0 : Nat)) pos = some (List.replicate 48 0) :=
    fun pos hp => shift_replicate p n pos (by omega)
  unfold decodeF12
  rw [hs 0 (by norm_num), hs 1 (by norm_num), hs 2 (by norm_num),
    hs 3 (by norm_num), hs 4 (by norm_num), hs 5 (by norm_num), hs 6 (by norm_num),
    hs 7 (by norm_num), hs 8 (by norm_num), hs 9 (by norm_num), hs 10 (by norm_num),
    hs 11 (by norm_num)]
  rfl

/-- An engine whose domain conversions are the identity on memory; the
lossless-round-trip contract holds for it trivially. -/
def idEngine : Engine where
  fromMontgomery := fun _ _ m => m
  toMontgomery := fun _ _ m => m

/-- A full engine all of whose operations are the identity on memory. -/
def idFullEngine : FullEngine where
  fromMontgomery := fun _ _ m => m
  toMontgomery := fun _ _ m => m
  g1mNeg := fun _ _ m => m
  g2mNeg := fun _ _ m => m
  pairingOp := fun _ _ _ m => m
  conjugateOp := fun _ _ m => m

/-- C6 counterexample: `to_le` returns the minimal little-endian
buffer, not a 48-byte zero-padded one — `to_le 5` has length 1 — and
does not fail for values from `2 ^ 384` up: `to_le (2 ^ 384)` returns
a 49-byte buffer. -/
theorem to_le_not_fixed_width : (to_le 5).length ≠ 48 ∧ (to_le (2 ^ 384)).length = 49 := by
  constructor
  · decide
  · decide

/-- C6 (amended): `to_le v` is never empty, and its length is at most
48 exactly when `v < 2 ^ 384`; for larger values it returns a longer
buffer instead of failing, and it never zero-pads to a fixed width. -/
theorem to_le_minimal_length (v : Nat) :
    1 ≤ (to_le v).length ∧ ((to_le v).length ≤ 48 ↔ v < 2 ^ 384) := by
  have hpow : (256 : Nat) ^ 48 = 2 ^ 384 := by
    rw [show (256 : Nat) = 2 ^ 8 from rfl, ← pow_mul]
  unfold to_le
  by_cases hv : v = 0
  · subst hv
    simp
  · rw [if_neg hv]
    refine ⟨?_, ?_⟩
    · match v, hv with
      | m + 1, _ => simp [toLeBytesAux]
    · rw [toLeBytesAux_length_le_iff 48 v v le_rfl, hpow]

/-- C7: decoding the encoding of any value representable in 48 bytes
returns the value: `from_le (to_le v) = v`. -/
theorem from_le_to_le_roundtrip (v : Nat) (h : v < 2 ^ 384) :
    from_le (to_le v) = v := by
  unfold to_le
  by_cases hv : v = 0
  · subst hv
    simp [from_le]
  · rw [if_neg hv]
    exact from_le_toLeBytesAux v v le_rfl

/-- C7 witness: the round-trip at the concrete value 3. -/
theorem from_le_to_le_roundtrip_witness : from_le (to_le 3) = 3 :=
  from_le_to_le_roundtrip 3 (by norm_num)

/-- C8 counterexample: `from_le` decodes a 1-byte buffer to an integer
rather than failing — there is no width check. -/
theorem from_le_no_width_check : from_le [7] = 7 ∧ ([7] : List Nat).length ≠ 48 := by
  constructor
  · decide
  · decide

/-- C8 (amended): `from_le` is total over buffers of every length and
returns the little-endian value, which for a valid byte buffer is
bounded by `256 ^ length`; no `InvalidWidth` failure exists. -/
theorem from_le_total_bound (b : List Nat) (hb : ∀ x ∈ b, x < 256) :
    from_le b < 256 ^ b.length := by
  induction b with
  | nil => simp [from_le]
  | cons a t ih =>
    have ha : a < 256 := hb a (List.mem_cons_self a t)
    have ht : from_le t < 256 ^ t.length :=
      ih (fun x hx => hb x (List.mem_cons_of_mem a hx))
    simp only [from_le, List.foldr_cons, List.length_cons] at *
    rw [pow_succ]
    omega

/-- C8 witness: the bound at the concrete buffer `[1, 2]`. -/
theorem from_le_total_bound_witness : from_le [1, 2] < 256 ^ ([1, 2] : List Nat).length :=
  from_le_total_bound [1, 2] (by decide)

/-- C10: `from_le` is insensitive to high-order zero padding: appending
any number of zero bytes to the most-significant end of a buffer does
not change the decoded value. -/
theorem from_le_zero_pad_insensitive (b : List Nat) (n : Nat) :
    from_le (b ++ List.replicate n 0) = from_le b := by
  unfold from_le
  rw [List.foldr_append]
  have h0 := from_le_replicate_zero n
  unfold from_le at h0
  rw [h0]

/-- C2: reading an extension-12 element in the standard domain
(`in_montgomery = false`) converts in place at the offset, decodes the
12-slot grid from the converted snapshot, and — when the engine's
to-transform inverts its from-transform at that offset — returns the
memory region bit-identical to its content before the call. -/
theorem get_f12_standard_restores_memory (e : Engine) (mem : Mem) (o : Nat)
    (hinv : e.toMontgomery o o (e.fromMontgomery o o mem) = mem) :
    get_f12 e mem o false =
      (decodeF12 (e.fromMontgomery o o mem) o).map (fun g => (g, mem)) := by
  simp only [get_f12, Bool.not_false, if_pos]
  rw [hinv]

/-- C2 witness: the identity engine satisfies the round-trip contract,
and the standard-domain read at offset 0 over a 576-byte region then
returns the original memory. -/
theorem get_f12_standard_restores_memory_witness :
    get_f12 idEngine (List.replicate 576 0) 0 false =
      (decodeF12 (idEngine.fromMontgomery 0 0 (List.replicate 576 0)) 0).map
        (fun g => (g, List.replicate 576 0)) :=
  get_f12_standard_restores_memory idEngine (List.replicate 576 0) 0 rfl

/-- C3: reading an extension-12 element with `in_montgomery = true`
invokes no domain conversion — the result is the direct decode of the
current memory, for every engine — and the memory is unchanged. -/
theorem get_f12_montgomery_reads_directly (e : Engine) (mem : Mem) (o : Nat) :
    get_f12 e mem o true = (decodeF12 mem o).map (fun g => (g, mem)) := rfl

/-- C4: whenever some computed 48-byte slot range of an extension-12,
group-1 or group-2 decode exceeds the memory region's size — in
particular at any offset within 48 bytes of the upper bound — the read
fails rather than reading past the end. -/
theorem reads_fail_out_of_bounds (e : Engine) (data : Mem) (o pos : Nat) :
    (pos < 12 → data.length < o + (pos + 1) * 48 → decodeF12 data o = none) ∧
    (pos < 12 → data.length < o + (pos + 1) * 48 → get_f12 e data o true = none) ∧
    (pos < 3 → data.length < P_G1 + (pos + 1) * 48 → g1 data = none) ∧
    (pos < 6 → data.length < P_G2 + (pos + 1) * 48 → g2 data = none) := by
  refine ⟨?_, ?_, ?_, ?_⟩
  · intro hp h
    exact decodeF12_eq_none_of_oob data o (by omega)
  · intro hp h
    have hdir : get_f12 e data o true = (decodeF12 data o).map (fun g => (g, data)) := rfl
    rw [hdir, decodeF12_eq_none_of_oob data o (by omega)]
    rfl
  · intro hp h
    exact g1_eq_none_of_oob data (by unfold P_G1 at *; omega)
  · intro hp h
    exact g2_eq_none_of_oob data (by unfold P_G2 at *; omega)

/-- C4 witness: a 100-byte region read at offset 60 (within 48 bytes of
the upper bound) fails on all readers, as do the fixed-offset
generator readers. -/
theorem reads_fail_out_of_bounds_witness :
    decodeF12 (List.replicate 100 0) 60 = none ∧
    get_f12 idEngine (List.replicate 100 0) 60 true = none ∧
    g1 (List.replicate 100 0) = none ∧
    g2 (List.replicate 100 0) = none := by
  have h := reads_fail_out_of_bounds idEngine (List.replicate 100 0) 60 0
  exact ⟨h.1 (by decide) (by decide), h.2.1 (by decide) (by decide),
    h.2.2.1 (by decide) (by decide), h.2.2.2 (by decide) (by decide)⟩

/-- C9 counterexample: the source's `g2` does not return a 3x2 grid —
on an all-zero region covering the generator slots, each of the three
coordinates of its result holds a single wrapper entry, not two. -/
theorem g2_shape_not_three_by_two :
    (g2 (List.replicate 42680 0)).map (fun r => r.map List.length) ≠ some [2, 2, 2] := by
  have hs : ∀ pos, pos < 6 →
      shift P_G2 (List.replicate 42680 (0 : Nat)) pos = some (List.replicate 48 0) :=
    fun pos hp => shift_replicate P_G2 42680 pos (by unfold P_G2; omega)
  unfold g2
  rw [hs 0 (by norm_num), hs 1 (by norm_num), hs 2 (by norm_num),
    hs 3 (by norm_num), hs 4 (by norm_num), hs 5 (by norm_num)]
  decide

/-- C9 (amended): `g1` and `g2` read at the fixed generator offsets and
return the raw 48-byte slots — `g1` three slots, `g2` six slots nested
3x1x2 — with no domain conversion; decoding the returned slots
slot-wise yields exactly the spec reader's 3-integer vector and 3x2
integer grid at those offsets. -/
theorem generator_reads_decode_to_spec_grids (data : Mem) :
    (g1 data).map (fun r => r.map from_le) = readG1Spec data P_G1 ∧
    (g2 data).map (fun r => r.map (fun c => c.flatten.map from_le)) = readG2Spec data P_G2 := by
  constructor
  · unfold g1 readG1Spec
    cases shift P_G1 data 0 <;> cases shift P_G1 data 1 <;>
      cases shift P_G1 data 2 <;> rfl
  · unfold g2 readG2Spec
    cases shift P_G2 data 0 <;> cases shift P_G2 data 1 <;> cases shift P_G2 data 2 <;>
      cases shift P_G2 data 3 <;> cases shift P_G2 data 4 <;>
      cases shift P_G2 data 5 <;> rfl

/-- C5 counterexample: handle construction performs no export
validation — an image exporting nothing (in particular lacking the
required pairing export) still constructs successfully, and the load
error type has no missing-export variant at all. -/
theorem from_file_no_export_check :
    from_file ⟨true, true, true, true, []⟩ true = .ok ⟨[]⟩ ∧
    "bls12381_pairing" ∈ requiredExports := by
  constructor
  · rfl
  · decide

/-- C5 (amended): construction succeeds for any export set once load,
memory allocation, instantiation and start succeed; a required export
that is absent is detected only at call time, when the per-call lookup
fails with a could-not-find-function error. -/
theorem from_file_validates_no_exports (img : EngineImage) (memOk : Bool) (name : String)
    (h1 : img.readOk = true) (h2 : img.moduleValid = true) (hm : memOk = true)
    (h3 : img.linkOk = true) (h4 : img.startOk = true) (hn : name ∉ img.exports) :
    from_file img memOk = .ok ⟨img.exports⟩ ∧
    call_export ⟨img.exports⟩ name = .error ("could not find function " ++ name) := by
  constructor
  · simp [from_file, h1, h2, hm, h3, h4]
  · simp [call_export, hn]

/-- C5 amended witness: an image with no exports constructs fine, and
the call-time lookup of `g1m_neg` then fails. -/
theorem from_file_validates_no_exports_witness :
    from_file ⟨true, true, true, true, []⟩ true = .ok ⟨([] : List String)⟩ ∧
    call_export ⟨([] : List String)⟩ "g1m_neg" =
      .error ("could not find function " ++ "g1m_neg") :=
  from_file_validates_no_exports ⟨true, true, true, true, []⟩ true "g1m_neg"
    rfl rfl rfl rfl rfl (by simp)

/-- C1 counterexample: the test's operation sequence is not the order
the spec prescribes — the conjugation of the first pairing result runs
before the second and third pairings, not after them. -/
theorem harness_not_spec_order : harnessTrace ≠ specClaimTrace := by decide

/-- C1 (amended): the harness negates both generators, computes the
pairing `(P, Q)`, conjugates that result in place, computes the
pairings `(-P, Q)` and `(P, -Q)`, decodes all three results in the
standard domain, and surfaces any mismatch of the decoded grids as a
pairing-identity violation, succeeding exactly when all three agree. -/
theorem harness_order_and_identity_check (e : FullEngine) (mem : Mem)
    (p q r : F12) (m7 m8 m9 : Mem)
    (h1 : get_f12 e.toEngine (memAfterCalls e mem) p_p false = some (p, m7))
    (h2 : get_f12 e.toEngine m7 p_q false = some (q, m8))
    (h3 : get_f12 e.toEngine m8 p_r false = some (r, m9)) :
    harnessTrace = specAmendedTrace ∧
    (paring_is_unitary e mem = .ok () ↔ (p = q ∧ q = r)) ∧
    (¬(p = q ∧ q = r) →
      paring_is_unitary e mem = .error .pairingIdentityViolation) := by
  refine ⟨by decide, ?_, ?_⟩
  · unfold paring_is_unitary
    simp only [h1, h2, h3]
    by_cases hpq : p = q <;> by_cases hqr : q = r <;> simp [hpq, hqr]
  · intro hne
    unfold paring_is_unitary
    simp only [h1, h2, h3]
    by_cases hpq : p = q
    · by_cases hqr : q = r
      · exact absurd ⟨hpq, hqr⟩ hne
      · simp [hpq, hqr]
    · simp [hpq]

/-- C1 amended witness: on the identity engine over an all-zero region
covering the three scratch results, the three decodes return the
all-zero grid, they agree, and the harness run succeeds. -/
theorem harness_order_and_identity_check_witness :
    harnessTrace = specAmendedTrace ∧
    (paring_is_unitary idFullEngine (List.replicate 129576 0) = .ok () ↔
      (([[[0, 0], [0, 0], [0, 0]], [[0, 0], [0, 0], [0, 0]]] : F12) =
          [[[0, 0], [0, 0], [0, 0]], [[0, 0], [0, 0], [0, 0]]] ∧
        ([[[0, 0], [0, 0], [0, 0]], [[0, 0], [0, 0], [0, 0]]] : F12) =
          [[[0, 0], [0, 0], [0, 0]], [[0, 0], [0, 0], [0, 0]]])) ∧
    (¬(([[[0, 0], [0, 0], [0, 0]], [[0, 0], [0, 0], [0, 0]]] : F12) =
          [[[0, 0], [0, 0], [0, 0]], [[0, 0], [0, 0], [0, 0]]] ∧
        ([[[0, 0], [0, 0], [0, 0]], [[0, 0], [0, 0], [0, 0]]] : F12) =
          [[[0, 0], [0, 0], [0, 0]], [[0, 0], [0, 0], [0, 0]]]) →
      paring_is_unitary idFullEngine (List.replicate 129576 0) =
        .error .pairingIdentityViolation) :=
  harness_order_and_identity_check idFullEngine (List.replicate 129576 0)
    [[[0, 0], [0, 0], [0, 0]], [[0, 0], [0, 0], [0, 0]]]
    [[[0, 0], [0, 0], [0, 0]], [[0, 0], [0, 0], [0, 0]]]
    [[[0, 0], [0, 0], [0, 0]], [[0, 0], [0, 0], [0, 0]]]
    (List.replicate 129576 0) (List.replicate 129576 0) (List.replicate 129576 0)
    (by
      show (decodeF12 (List.replicate 129576 0) 127000).map
          (fun g => (g, List.replicate 129576 (0 : Nat))) =
        some ([[[0, 0], [0, 0], [0, 0]], [[0, 0], [0, 0], [0, 0]]],
          List.replicate 129576 0)
      rw [decodeF12_replicate 129576 127000 (by norm_num)]
      rfl)
    (by
      show (decodeF12 (List.replicate 129576 0) 128000).map
          (fun g => (g, List.replicate 129576 (0 : Nat))) =
        some ([[[0, 0], [0, 0], [0, 0]], [[0, 0], [0, 0], [0, 0]]],
          List.replicate 129576 0)
      rw [decodeF12_replicate 129576 128000 (by norm_num)]
      rfl)
    (by
      show (decodeF12 (List.replicate 129576 0) 129000).map
          (fun g => (g, List.replicate 129576 (0 : Nat))) =
        some ([[[0, 0], [0, 0], [0, 0]], [[0, 0], [0, 0], [0, 0]]],
          List.replicate 129576 0)
      rw [decodeF12_replicate 129576 129000 (by norm_num)]
      rfl)
